import Mathlib

/-!
Shallow embedding of the Tetris game engine (src/src/main.ts state module,
src/src/types.ts, src/unnamed/part_000 utility module) together with proofs
about the claims of the specification.

Modelling conventions:
  - JavaScript numbers that are used as integers are modelled as Int (or Nat
    for counters that are provably non-negative in the source).
  - A JavaScript runtime TypeError (indexing a missing row and then reading a
    property of undefined) is modelled by Option: a function that can crash
    returns none in exactly the situations in which the source would throw.
    Producing NaN from arithmetic on undefined (score lookup overrun) is also
    modelled as none.
  - Array.prototype.some short-circuits on the first truthy result, so a crash
    hidden behind an earlier truthy cell never happens; the helper anyIdxM
    reproduces this.
  - Grid cells are Option String: none is the null empty cell. JavaScript
    truthiness of a cell (used by collision detection) is: non-null and not
    the empty string. The fullness test of lineClear uses cell !== null.
  - The time-seeded random draw (RNG.randomInt over Date.now) is modelled by
    passing the drawn value (hash, or resulting tetromino) as an explicit
    oracle parameter.
-/

set_option linter.unusedVariables false

/-- A grid cell: none is the empty (null) cell, some c a color tag. -/
abbrev GridCell := Option String

/-- Integer anchor position of a tetromino (top-left of its shape matrix). -/
structure Pos where
  x : Int
  y : Int
deriving DecidableEq, Repr

/-- A tetromino value: rotation shapes, anchor position, color, rotation index. -/
structure Tetromino where
  shapes : List (List (List Int))
  position : Pos
  color : String
  rotation : Nat
deriving DecidableEq, Repr

/-- Constants.GRID_WIDTH from types.ts. -/
def GRID_WIDTH : Int := 10

/-- Constants.GRID_HEIGHT from types.ts. -/
def GRID_HEIGHT : Int := 20

/-- Constants.MULTIPLIER from types.ts. -/
def MULTIPLIER : Int := 10

/-- Constants.START_X from types.ts. -/
def START_X : Int := 4

/-- Constants.START_Y from types.ts. -/
def START_Y : Int := 0

/-- Viewport.CANVAS_WIDTH from types.ts. -/
def CANVAS_WIDTH : Int := 200

/-- Viewport.CANVAS_HEIGHT from types.ts. -/
def CANVAS_HEIGHT : Int := 400

/-- Block.WIDTH = CANVAS_WIDTH / GRID_WIDTH from types.ts. -/
def BLOCK_WIDTH : Int := CANVAS_WIDTH / GRID_WIDTH

/-- Block.HEIGHT = CANVAS_HEIGHT / GRID_HEIGHT from types.ts. -/
def BLOCK_HEIGHT : Int := CANVAS_HEIGHT / GRID_HEIGHT

/-- O_TETROMINO from types.ts. -/
def O_TETROMINO : Tetromino :=
  { shapes := [[[1, 1], [1, 1]]]
    position := { x := START_X, y := START_Y }
    color := "yellow"
    rotation := 0 }

/-- T_TETROMINO from types.ts. -/
def T_TETROMINO : Tetromino :=
  { shapes :=
      [[[0, 1, 0], [1, 1, 1], [0, 0, 0]],
       [[0, 1, 0], [0, 1, 1], [0, 1, 0]],
       [[0, 0, 0], [1, 1, 1], [0, 1, 0]],
       [[0, 1, 0], [1, 1, 0], [0, 1, 0]]]
    position := { x := START_X, y := START_Y }
    color := "purple"
    rotation := 0 }

/-- I_TETROMINO from types.ts. -/
def I_TETROMINO : Tetromino :=
  { shapes :=
      [[[1, 1, 1, 1], [0, 0, 0, 0], [0, 0, 0, 0], [0, 0, 0, 0]],
       [[0, 0, 0, 1], [0, 0, 0, 1], [0, 0, 0, 1], [0, 0, 0, 1]],
       [[0, 0, 0, 0], [0, 0, 0, 0], [0, 0, 0, 0], [1, 1, 1, 1]],
       [[1, 0, 0, 0], [1, 0, 0, 0], [1, 0, 0, 0], [1, 0, 0, 0]]]
    position := { x := START_X, y := START_Y }
    color := "cyan"
    rotation := 0 }

/-- S_TETROMINO from types.ts. -/
def S_TETROMINO : Tetromino :=
  { shapes :=
      [[[0, 1, 1], [1, 1, 0], [0, 0, 0]],
       [[0, 1, 0], [0, 1, 1], [0, 0, 1]],
       [[0, 0, 0], [0, 1, 1], [1, 1, 0]],
       [[1, 0, 0], [1, 1, 0], [0, 1, 0]]]
    position := { x := START_X, y := START_Y }
    color := "green"
    rotation := 0 }

/-- Z_TETROMINO from types.ts. -/
def Z_TETROMINO : Tetromino :=
  { shapes :=
      [[[1, 1, 0], [0, 1, 1], [0, 0, 0]],
       [[0, 0, 1], [0, 1, 1], [0, 1, 0]],
       [[0, 0, 0], [1, 1, 0], [0, 1, 1]],
       [[0, 1, 0], [1, 1, 0], [1, 0, 0]]]
    position := { x := START_X, y := START_Y }
    color := "red"
    rotation := 0 }

/-- L_TETROMINO from types.ts. -/
def L_TETROMINO : Tetromino :=
  { shapes :=
      [[[1, 0, 0], [1, 1, 1], [0, 0, 0]],
       [[0, 1, 1], [0, 1, 0], [0, 1, 0]],
       [[0, 0, 0], [1, 1, 1], [0, 0, 1]],
       [[0, 1, 0], [0, 1, 0], [1, 1, 0]]]
    position := { x := START_X, y := START_Y }
    color := "orange"
    rotation := 0 }

/-- J_TETROMINO from types.ts. -/
def J_TETROMINO : Tetromino :=
  { shapes :=
      [[[0, 0, 1], [1, 1, 1], [0, 0, 0]],
       [[0, 1, 0], [0, 1, 0], [0, 1, 1]],
       [[0, 0, 0], [1, 1, 1], [1, 0, 0]],
       [[1, 1, 0], [0, 1, 0], [0, 1, 0]]]
    position := { x := START_X, y := START_Y }
    color := "blue"
    rotation := 0 }

/-- The tetromino catalog, in the order of the util module. -/
def Tetrominos : List Tetromino :=
  [O_TETROMINO, S_TETROMINO, L_TETROMINO, Z_TETROMINO, J_TETROMINO,
   I_TETROMINO, T_TETROMINO]

/-- The movement directions of the util module Direction enum. -/
inductive Direction where
  | LEFT
  | RIGHT
  | DOWN
  | ROTATE
deriving DecidableEq, Repr

/-- The game state record of the state module. -/
structure State where
  currentTetromino : Tetromino
  nextTetromino : Tetromino
  heldElement : Option Tetromino
  grid : List (List GridCell)
  score : Int
  level : Int
  highScore : Int
  gameEnd : Bool
  speedMultiplier : Int
  speedCount : Int
  rowsCleared : Nat
  usedHold : Bool
deriving DecidableEq, Repr

/-- JavaScript array indexing with an Int index: undefined (none) when out of
range, including negative indices. -/
def getInt {α : Type} (l : List α) (i : Int) : Option α :=
  if i < 0 then none else l.get? i.toNat

/-- JavaScript truthiness of a grid cell read: undefined and null are falsy,
a string is truthy unless empty. -/
def cellTruthy (c : Option GridCell) : Bool :=
  match c with
  | none => false
  | some none => false
  | some (some s) => !(s == "")

/-- Reading grid[y][x]: none models the TypeError thrown when the row itself
is missing; a missing cell inside an existing row is just falsy undefined. -/
def gridTruthyAt (grid : List (List GridCell)) (y x : Int) : Option Bool :=
  match getInt grid y with
  | none => none
  | some row => some (cellTruthy (getInt row x))

/-- Short-circuiting indexed some over a list, in the Option monad: evaluates
the cells left to right, stops at the first true, propagates the first crash
encountered before that; exactly Array.prototype.some of the source. -/
def anyIdxM {α : Type} (f : Nat → α → Option Bool) : Nat → List α → Option Bool
  | _, [] => some false
  | i, a :: as =>
    match f i a with
    | none => none
    | some true => some true
    | some false => anyIdxM f (i + 1) as

/-- Indexed map in the Option monad; exactly Array.prototype.map over a
per-cell computation that can crash. -/
def mapIdxM {α β : Type} (f : Nat → α → Option β) : Nat → List α → Option (List β)
  | _, [] => some []
  | i, a :: as =>
    match f i a with
    | none => none
    | some b =>
      match mapIdxM f (i + 1) as with
      | none => none
      | some bs => some (b :: bs)

/-- Indexed conjunction over a list, used only to state decidable
preconditions of theorems (not part of the source). -/
def allIdx {α : Type} (f : Nat → α → Bool) : Nat → List α → Bool
  | _, [] => true
  | i, a :: as => f i a && allIdx f (i + 1) as

/-- initialiseGrid of the util module: height rows of width null cells. -/
def initialiseGrid (width height : Int) : List (List GridCell) :=
  List.replicate height.toNat (List.replicate width.toNat none)

/-- The per-cell body of placeTetrominoOnGrid. The JavaScript conjunction is
short-circuiting, so shapes[rotation][0] is only read once the relative row is
known to be in range (hence the shape is nonempty); the only possible crash is
shapes[rotation] itself being undefined. A shape row shorter than row 0 yields
undefined === 1, which is false. -/
def placeCell (t : Tetromino) (rowIndex colIndex : Nat) (cell : GridCell) :
    Option GridCell :=
  match t.shapes.get? t.rotation with
  | none => none
  | some shape =>
    let relativeY : Int := (rowIndex : Int) - t.position.y
    let relativeX : Int := (colIndex : Int) - t.position.x
    if 0 ≤ relativeY ∧ relativeY < shape.length ∧
        0 ≤ relativeX ∧ relativeX < (shape.headD []).length then
      let shapeCell : Int :=
        match getInt shape relativeY with
        | none => 0
        | some row => (getInt row relativeX).getD 0
      if shapeCell = 1 then
        some (some t.color)
      else some cell
    else some cell

/-- placeTetrominoOnGrid of the util module: map over the grid with row and
column indices, painting the cells covered by the current rotation shape. -/
def placeTetrominoOnGrid (grid : List (List GridCell)) (t : Tetromino) :
    Option (List (List GridCell)) :=
  mapIdxM (fun rowIndex row => mapIdxM (placeCell t rowIndex) 0 row) 0 grid

/-- The fullness test of lineClear: row.every(cell => cell !== null). -/
def isFullRow (row : List GridCell) : Bool :=
  row.all (fun cell => cell.isSome)

/-- lineClear of the util module. Reading grid[0].length throws on an empty
grid, modelled by none. -/
def lineClear (grid : List (List GridCell)) :
    Option (List (List GridCell) × Nat) :=
  let newGrid := grid.filter (fun row => ! isFullRow row)
  match grid with
  | [] => none
  | firstRow :: _ =>
    let newRow : List GridCell := List.replicate firstRow.length none
    let newRows := List.replicate (grid.length - newGrid.length) newRow
    some (newRows ++ newGrid, grid.length - newGrid.length)

/-- topOut of the util module: grid[0].some(cell => cell !== null); reading
grid[0] throws on an empty grid. -/
def topOut (grid : List (List GridCell)) : Option Bool :=
  match grid with
  | [] => none
  | firstRow :: _ => some (firstRow.any (fun cell => cell.isSome))

/-- calculateScore of the util module. The lookup scores[rowsCleared - 1] is
undefined for rowsCleared above 4 and the resulting NaN score is modelled as
none. -/
def calculateScore (level : Int) (rowsCleared : Nat) : Option Int :=
  if rowsCleared = 0 then some 0
  else
    match [(40 : Int), 100, 300, 1200].get? (rowsCleared - 1) with
    | none => none
    | some s => some ((level + 1) * s)

/-- collisionDetection of the state module. The shape lookup
shapes[rotation] is read first and crashes if the rotation index is out of
range. Each direction then scans the filled shape cells with the
short-circuiting some. -/
def collisionDetection (state : State) (direction : Direction) : Option Bool :=
  match state.currentTetromino.shapes.get? state.currentTetromino.rotation with
  | none => none
  | some tetrominoShape =>
    match direction with
    | Direction.DOWN =>
      anyIdxM (fun y row =>
        anyIdxM (fun x cell =>
          if cell ≠ 0 then
            if (state.currentTetromino.position.y + y + 1) * BLOCK_HEIGHT ≥ CANVAS_HEIGHT then
              some true
            else
              gridTruthyAt state.grid (state.currentTetromino.position.y + y + 1)
                (state.currentTetromino.position.x + x)
          else some false) 0 row) 0 tetrominoShape
    | Direction.LEFT =>
      anyIdxM (fun y row =>
        anyIdxM (fun x cell =>
          if cell ≠ 0 then
            if state.currentTetromino.position.x + x - 1 < 0 then some true
            else
              gridTruthyAt state.grid (state.currentTetromino.position.y + y)
                (state.currentTetromino.position.x + x - 1)
          else some false) 0 row) 0 tetrominoShape
    | Direction.RIGHT =>
      anyIdxM (fun y row =>
        anyIdxM (fun x cell =>
          if cell ≠ 0 then
            if state.currentTetromino.position.x + x + 1 ≥ CANVAS_WIDTH / BLOCK_WIDTH then
              some true
            else
              gridTruthyAt state.grid (state.currentTetromino.position.y + y)
                (state.currentTetromino.position.x + x + 1)
          else some false) 0 row) 0 tetrominoShape
    | Direction.ROTATE =>
      anyIdxM (fun y row =>
        anyIdxM (fun x cell =>
          if cell ≠ 0 then
            if state.currentTetromino.position.y + y < 0 then some true
            else if state.currentTetromino.position.y + y ≥ CANVAS_HEIGHT / BLOCK_HEIGHT then
              some true
            else if state.currentTetromino.position.x + x < 0 then some true
            else if state.currentTetromino.position.x + x ≥ CANVAS_WIDTH / BLOCK_WIDTH then
              some true
            else
              gridTruthyAt state.grid (state.currentTetromino.position.y + y)
                (state.currentTetromino.position.x + x)
          else some false) 0 row) 0 tetrominoShape

/-- moveTetrominoDown of the util module: lock, clear, score and redraw when a
DOWN collision is detected, otherwise advance the piece one row. The freshly
drawn next tetromino is the oracle parameter rnd. -/
def moveTetrominoDown (rnd : Tetromino) (state : State) : Option State :=
  match collisionDetection state Direction.DOWN with
  | none => none
  | some true =>
    match placeTetrominoOnGrid state.grid state.currentTetromino with
    | none => none
    | some placed =>
      match lineClear placed with
      | none => none
      | some (newGrid, rowsCleared) =>
        let newRowsCleared := state.rowsCleared + rowsCleared
        let newLevel : Int := 1 + ((newRowsCleared / 3 : Nat) : Int)
        match topOut newGrid, calculateScore state.level rowsCleared with
        | some ge, some pts =>
          some { state with
            currentTetromino := state.nextTetromino
            nextTetromino := rnd
            grid := newGrid
            gameEnd := ge
            score := state.score + pts
            speedCount := 0
            speedMultiplier := MULTIPLIER - newLevel
            level := newLevel
            rowsCleared := newRowsCleared
            usedHold := false }
        | _, _ => none
  | some false =>
    some { state with
      currentTetromino := { state.currentTetromino with
        position := { x := state.currentTetromino.position.x,
                      y := state.currentTetromino.position.y + 1 } }
      speedCount := 0 }

/-- initialState of the state module, with the two startup random catalog
draws passed as oracle parameters. -/
def initialState (t1 t2 : Tetromino) : State :=
  { currentTetromino := t1
    nextTetromino := t2
    heldElement := none
    grid := initialiseGrid (CANVAS_WIDTH / BLOCK_WIDTH) (CANVAS_HEIGHT / BLOCK_HEIGHT)
    score := 0
    level := 1
    highScore := 0
    gameEnd := false
    speedMultiplier := 10
    speedCount := 0
    rowsCleared := 0
    usedHold := false }

/-- GameFlow.apply of the state module: reset on game end keeping the better
high score, perform a down step when the tick accumulator reached the speed
threshold, otherwise just count the tick. -/
def gameFlowApply (t1 t2 rnd : Tetromino) (s : State) : Option State :=
  if s.gameEnd then
    some { initialState t1 t2 with
      highScore := if s.highScore < s.score then s.score else s.highScore }
  else if s.speedMultiplier ≤ s.speedCount then
    moveTetrominoDown rnd s
  else
    some { s with speedCount := s.speedCount + 1 }

/-- Move.apply of the state module: no-op on collision, otherwise shift x by
plus one for RIGHT and minus one otherwise. -/
def moveApply (direction : Direction) (s : State) : Option State :=
  match collisionDetection s direction with
  | none => none
  | some true => some s
  | some false =>
    some { s with
      currentTetromino := { s.currentTetromino with
        position := { x := s.currentTetromino.position.x +
                        (if direction = Direction.RIGHT then 1 else -1),
                      y := s.currentTetromino.position.y } } }

/-- Rotate.apply of the state module: build the candidate state with the next
rotation index, keep it unless the ROTATE collision check rejects it. -/
def rotateApply (s : State) : Option State :=
  let currentRotation := s.currentTetromino.rotation
  let newRotation :=
    if currentRotation + 1 < s.currentTetromino.shapes.length then
      currentRotation + 1
    else 0
  let newState : State :=
    { s with currentTetromino := { s.currentTetromino with rotation := newRotation } }
  match collisionDetection newState Direction.ROTATE with
  | none => none
  | some true => some s
  | some false => some newState

/-- Drop.apply of the state module: general recursion modelled with explicit
fuel; none on fuel exhaustion stands for a recursion that has not terminated
within the given bound. -/
def dropFuel (rnd : Tetromino) : Nat → State → Option State
  | 0, _ => none
  | n + 1, s =>
    match collisionDetection s Direction.DOWN with
    | none => none
    | some true => moveTetrominoDown rnd s
    | some false =>
      match moveTetrominoDown rnd s with
      | none => none
      | some s2 => dropFuel rnd n s2

/-- Hold.apply of the state module. -/
def holdApply (rnd : Tetromino) (s : State) : State :=
  if s.usedHold then s
  else
    match s.heldElement with
    | none =>
      { s with
        currentTetromino := s.nextTetromino
        nextTetromino := rnd
        heldElement := some s.currentTetromino
        usedHold := true }
    | some held =>
      { s with
        currentTetromino := held
        heldElement := some s.currentTetromino
        usedHold := true }

/-- The non-locking down step: the piece advances one row and the tick
accumulator resets; this is exactly what moveTetrominoDown returns when no
DOWN collision is detected. -/
def bump (s : State) : State :=
  { s with
    currentTetromino := { s.currentTetromino with
      position := { x := s.currentTetromino.position.x,
                    y := s.currentTetromino.position.y + 1 } }
    speedCount := 0 }

/-- Iterated non-locking down steps. -/
def bumpIter : Nat → State → State
  | 0, s => s
  | n + 1, s => bumpIter n (bump s)

/-- The states reachable from the initial state by finite sequences of the six
actions. t1 and t2 are the startup catalog draws (the GameFlow reset spreads
the module-level initialState value, so they persist across games); every
random draw performed by an action is an arbitrary member of the catalog. -/
inductive Reachable (t1 t2 : Tetromino) : State → Prop where
  | init : t1 ∈ Tetrominos → t2 ∈ Tetrominos →
      Reachable t1 t2 (initialState t1 t2)
  | tick {s s' : State} {r : Tetromino} : Reachable t1 t2 s → r ∈ Tetrominos →
      gameFlowApply t1 t2 r s = some s' → Reachable t1 t2 s'
  | move {s s' : State} {d : Direction} : Reachable t1 t2 s →
      (d = Direction.LEFT ∨ d = Direction.RIGHT) →
      moveApply d s = some s' → Reachable t1 t2 s'
  | rot {s s' : State} : Reachable t1 t2 s →
      rotateApply s = some s' → Reachable t1 t2 s'
  | down {s s' : State} {r : Tetromino} : Reachable t1 t2 s → r ∈ Tetrominos →
      moveTetrominoDown r s = some s' → Reachable t1 t2 s'
  | drop {s s' : State} {r : Tetromino} {n : Nat} : Reachable t1 t2 s →
      r ∈ Tetrominos → dropFuel r n s = some s' → Reachable t1 t2 s'
  | hold {s : State} {r : Tetromino} : Reachable t1 t2 s → r ∈ Tetrominos →
      Reachable t1 t2 (holdApply r s)

/-- One action of the merged event stream together with the oracle values it
consumes, used to describe concrete play traces. -/
inductive Act where
  | tick (r : Tetromino)
  | move (d : Direction)
  | rot
  | down (r : Tetromino)
  | drop (r : Tetromino) (fuel : Nat)
  | hold (r : Tetromino)

/-- Apply one action to a state. -/
def applyAct (t1 t2 : Tetromino) : Act → State → Option State
  | Act.tick r, s => gameFlowApply t1 t2 r s
  | Act.move d, s => moveApply d s
  | Act.rot, s => rotateApply s
  | Act.down r, s => moveTetrominoDown r s
  | Act.drop r fuel, s => dropFuel r fuel s
  | Act.hold r, s => some (holdApply r s)

/-- Run a list of actions from a state, stopping at the first failure. -/
def runActs (t1 t2 : Tetromino) : List Act → State → Option State
  | [], s => some s
  | a :: as, s =>
    match applyAct t1 t2 a s with
    | none => none
    | some s2 => runActs t1 t2 as s2

/-- Validity of the oracle content of an action: drawn pieces come from the
catalog and a horizontal move goes LEFT or RIGHT. -/
def ActValid : Act → Prop
  | Act.tick r => r ∈ Tetrominos
  | Act.move d => d = Direction.LEFT ∨ d = Direction.RIGHT
  | Act.rot => True
  | Act.down r => r ∈ Tetrominos
  | Act.drop r _ => r ∈ Tetrominos
  | Act.hold r => r ∈ Tetrominos

/-- Five O pieces hard-dropped at columns 0, 2, 4, 6 and 8: fills and clears
the bottom two rows when played on an empty board of O draws. -/
def oRound : List Act :=
  [Act.move Direction.LEFT, Act.move Direction.LEFT, Act.move Direction.LEFT,
   Act.move Direction.LEFT, Act.drop O_TETROMINO 25,
   Act.move Direction.LEFT, Act.move Direction.LEFT, Act.drop O_TETROMINO 25,
   Act.drop O_TETROMINO 25,
   Act.move Direction.RIGHT, Act.move Direction.RIGHT, Act.drop O_TETROMINO 25,
   Act.move Direction.RIGHT, Act.move Direction.RIGHT, Act.move Direction.RIGHT,
   Act.move Direction.RIGHT, Act.drop O_TETROMINO 25]

/-- Fourteen rounds of oRound: 28 cleared rows in total, driving the level to
10 and the speed multiplier down to 0. -/
def oTrace : List Act := (List.replicate 14 oRound).flatten

/-- Well-formed game grid: exactly 20 rows of exactly 10 cells. -/
def GridWF (g : List (List GridCell)) : Prop :=
  g.length = 20 ∧ ∀ r ∈ g, r.length = 10

/-- No row of the grid is full. -/
def noFullRows (g : List (List GridCell)) : Prop :=
  ∀ r ∈ g, isFullRow r = false

/-- The shape table of the tetromino is one of the catalog shape tables. -/
def catalogLike (t : Tetromino) : Prop :=
  ∃ c ∈ Tetrominos, t.shapes = c.shapes

/-- The state invariant maintained by every action: well-formed grid with no
full row, catalog shape tables everywhere, and the speed multiplier either
still at its initial value or exactly as recomputed at the last lock. -/
def StateInv (s : State) : Prop :=
  GridWF s.grid ∧ noFullRows s.grid ∧
  catalogLike s.currentTetromino ∧ catalogLike s.nextTetromino ∧
  (∀ t, s.heldElement = some t → catalogLike t) ∧
  ((s.speedMultiplier = 10 ∧ s.rowsCleared = 0) ∨
    s.speedMultiplier = 10 - (1 + ((s.rowsCleared / 3 : Nat) : Int)))

/-- The shape has at least one filled cell. -/
def shapeHasFilledCell (shape : List (List Int)) : Bool :=
  shape.any (fun row => row.any (fun cell => !(cell == 0)))

/-- Every filled cell of the shape, placed at pos, lies in columns 0..9 and
rows 0..19 of the grid. -/
def filledCellsWithin (shape : List (List Int)) (pos : Pos) : Bool :=
  allIdx (fun y row =>
    allIdx (fun x cell =>
      if cell = 0 then true
      else
        decide (0 ≤ pos.x + x) && decide (pos.x + x < 10) &&
        decide (0 ≤ pos.y + y) && decide (pos.y + y < 20)) 0 row) 0 shape

/-- Every filled cell of the shape, placed at vertical position posY, lies in
rows 0..19 of the grid. -/
def filledRowsWithin (shape : List (List Int)) (posY : Int) : Bool :=
  allIdx (fun y row =>
    allIdx (fun x cell =>
      if cell = 0 then true
      else decide (0 ≤ posY + y) && decide (posY + y < 20)) 0 row) 0 shape

/-- Truthiness of the grid cell at integer coordinates, with every
out-of-range read falsy; agrees with gridTruthyAt whenever the row index is in
range. -/
def occupiedAt (grid : List (List GridCell)) (y x : Int) : Bool :=
  match getInt grid y with
  | none => false
  | some row => cellTruthy (getInt row x)

/-- The rotation index the Rotate action moves to. -/
def candidateRotation (t : Tetromino) : Nat :=
  (t.rotation + 1) % t.shapes.length

/-- The Rotate action is blocked: some filled cell of the candidate rotated
shape, at the unchanged position, leaves the 10 by 20 board or overlaps an
occupied grid cell. -/
def rotationBlocked (s : State) : Prop :=
  ∃ y row x cell,
    (s.currentTetromino.shapes.getD (candidateRotation s.currentTetromino) []).get? y
        = some row ∧
    row.get? x = some cell ∧ cell ≠ 0 ∧
    (s.currentTetromino.position.y + y < 0 ∨
     20 ≤ s.currentTetromino.position.y + y ∨
     s.currentTetromino.position.x + x < 0 ∨
     10 ≤ s.currentTetromino.position.x + x ∨
     occupiedAt s.grid (s.currentTetromino.position.y + y)
       (s.currentTetromino.position.x + x) = true)

/-- A junk state whose current piece has a shape with no filled cell: the
hard drop recursion never sees a DOWN collision from it. -/
def zeroShapeState : State :=
  { currentTetromino :=
      { shapes := [[[0]]], position := { x := 4, y := 0 },
        color := "gray", rotation := 0 }
    nextTetromino := O_TETROMINO
    heldElement := none
    grid := initialiseGrid (CANVAS_WIDTH / BLOCK_WIDTH) (CANVAS_HEIGHT / BLOCK_HEIGHT)
    score := 0
    level := 1
    highScore := 0
    gameEnd := false
    speedMultiplier := 10
    speedCount := 0
    rowsCleared := 0
    usedHold := false }

/-- A game-over state carrying score 500 against high score 300. -/
def gameOver500 : State :=
  { initialState O_TETROMINO O_TETROMINO with
      score := 500, highScore := 300, gameEnd := true }

/-- The grid obtained by stamping the O piece at its start position onto the
empty board: rows 0 and 1 painted yellow in columns 4 and 5. -/
def placedInitialO : List (List GridCell) :=
  [none, none, none, none, some "yellow", some "yellow", none, none, none, none]
    :: [none, none, none, none, some "yellow", some "yellow", none, none, none, none]
    :: List.replicate 18 (List.replicate 10 none)

/-- Evaluation of the oTrace play from the all-O initial state: true iff the
run succeeds and ends with a non-positive speed multiplier. -/
def c7FinalCheck : Bool :=
  match runActs O_TETROMINO O_TETROMINO oTrace
      (initialState O_TETROMINO O_TETROMINO) with
  | none => false
  | some s => decide (s.speedMultiplier ≤ 0)

theorem allIdx_eq_true_iff {α : Type} (f : Nat → α → Bool) :
    ∀ (l : List α) (i : Nat), allIdx f i l = true ↔
      ∀ j a, l.get? j = some a → f (i + j) a = true := by
  intro l
  induction l with
  | nil => intro i; simp [allIdx]
  | cons a as ih =>
    intro i
    simp only [allIdx, Bool.and_eq_true, ih (i + 1)]
    constructor
    · rintro ⟨hf, hrest⟩ j b hj
      cases j with
      | zero =>
        simp only [List.get?_cons_zero, Option.some_inj] at hj
        subst hj; simpa using hf
      | succ j =>
        have h2 := hrest j b (by simpa using hj)
        have e : i + 1 + j = i + (j + 1) := by omega
        rw [e] at h2; exact h2
    · intro h
      refine ⟨by simpa using h 0 a rfl, fun j b hj => ?_⟩
      have h2 := h (j + 1) b (by simpa using hj)
      have e : i + 1 + j = i + (j + 1) := by omega
      rw [e]; exact h2

theorem anyIdxM_eq_false_iff {α : Type} (f : Nat → α → Option Bool) :
    ∀ (l : List α) (i : Nat), anyIdxM f i l = some false ↔
      ∀ j a, l.get? j = some a → f (i + j) a = some false := by
  intro l
  induction l with
  | nil => intro i; simp [anyIdxM]
  | cons a as ih =>
    intro i
    constructor
    · intro h j b hj
      cases hfa : f i a with
      | none => rw [anyIdxM, hfa] at h; exact absurd h (by simp)
      | some v =>
        cases v with
        | true => rw [anyIdxM, hfa] at h; exact absurd h (by simp)
        | false =>
          rw [anyIdxM, hfa] at h
          cases j with
          | zero =>
            simp only [List.get?_cons_zero, Option.some_inj] at hj
            subst hj; simpa using hfa
          | succ j =>
            have h2 := (ih (i + 1)).mp h j b (by simpa using hj)
            have e : i + 1 + j = i + (j + 1) := by omega
            rw [e] at h2; exact h2
    · intro h
      have hfa : f i a = some false := by simpa using h 0 a rfl
      rw [anyIdxM, hfa]
      refine (ih (i + 1)).mpr fun j b hj => ?_
      have h2 := h (j + 1) b (by simpa using hj)
      have e : i + 1 + j = i + (j + 1) := by omega
      rw [e]; exact h2

theorem anyIdxM_isSome {α : Type} (f : Nat → α → Option Bool) :
    ∀ (l : List α) (i : Nat),
      (∀ j a, l.get? j = some a → (f (i + j) a).isSome) →
      (anyIdxM f i l).isSome := by
  intro l
  induction l with
  | nil => intro i _; simp [anyIdxM]
  | cons a as ih =>
    intro i h
    have hfa : (f i a).isSome := by simpa using h 0 a rfl
    cases hv : f i a with
    | none => rw [hv] at hfa; exact absurd hfa (by simp)
    | some v =>
      cases v with
      | true => simp [anyIdxM, hv]
      | false =>
        rw [anyIdxM, hv]
        refine ih (i + 1) fun j b hj => ?_
        have h2 := h (j + 1) b (by simpa using hj)
        have e : i + 1 + j = i + (j + 1) := by omega
        rw [e]; exact h2

theorem anyIdxM_eq_true_iff {α : Type} (f : Nat → α → Option Bool) :
    ∀ (l : List α) (i : Nat),
      (∀ j a, l.get? j = some a → (f (i + j) a).isSome) →
      (anyIdxM f i l = some true ↔
        ∃ j a, l.get? j = some a ∧ f (i + j) a = some true) := by
  intro l
  induction l with
  | nil => intro i _; simp [anyIdxM]
  | cons a as ih =>
    intro i h
    have hfa : (f i a).isSome := by simpa using h 0 a rfl
    have hrest : ∀ j b, as.get? j = some b → (f (i + 1 + j) b).isSome := by
      intro j b hj
      have h2 := h (j + 1) b (by simpa using hj)
      have e : i + (j + 1) = i + 1 + j := by omega
      rw [← e]; exact h2
    cases hv : f i a with
    | none => rw [hv] at hfa; exact absurd hfa (by simp)
    | some v =>
      cases v with
      | true =>
        rw [anyIdxM, hv]
        simp only [true_iff]
        exact ⟨0, a, rfl, by simpa using hv⟩
      | false =>
        rw [anyIdxM, hv, ih (i + 1) hrest]
        constructor
        · rintro ⟨j, b, hj, hb⟩
          refine ⟨j + 1, b, by simpa using hj, ?_⟩
          have e : i + 1 + j = i + (j + 1) := by omega
          rw [← e]; exact hb
        · rintro ⟨j, b, hj, hb⟩
          cases j with
          | zero =>
            simp only [List.get?_cons_zero, Option.some_inj] at hj
            subst hj
            simp only [Nat.add_zero] at hb
            rw [hv] at hb; exact absurd hb (by simp)
          | succ j =>
            refine ⟨j, b, by simpa using hj, ?_⟩
            have e : i + 1 + j = i + (j + 1) := by omega
            rw [e]; exact hb

theorem mapIdxM_length {α β : Type} (f : Nat → α → Option β) :
    ∀ (l : List α) (i : Nat) (l' : List β),
      mapIdxM f i l = some l' → l'.length = l.length := by
  intro l
  induction l with
  | nil => intro i l' h; simp [mapIdxM] at h; subst h; rfl
  | cons a as ih =>
    intro i l' h
    rw [mapIdxM] at h
    cases hfa : f i a with
    | none => rw [hfa] at h; exact absurd h (by simp)
    | some b =>
      rw [hfa] at h
      cases hrest : mapIdxM f (i + 1) as with
      | none => rw [hrest] at h; exact absurd h (by simp)
      | some bs =>
        rw [hrest] at h
        simp only [Option.some_inj] at h
        subst h
        simp [ih (i + 1) bs hrest]

theorem mapIdxM_get?_iff {α β : Type} (f : Nat → α → Option β) :
    ∀ (l : List α) (i : Nat) (l' : List β),
      mapIdxM f i l = some l' → ∀ j b,
        (l'.get? j = some b ↔ ∃ a, l.get? j = some a ∧ f (i + j) a = some b) := by
  intro l
  induction l with
  | nil =>
    intro i l' h j b
    simp [mapIdxM] at h; subst h; simp
  | cons a as ih =>
    intro i l' h j b
    rw [mapIdxM] at h
    cases hfa : f i a with
    | none => rw [hfa] at h; exact absurd h (by simp)
    | some b0 =>
      rw [hfa] at h
      cases hrest : mapIdxM f (i + 1) as with
      | none => rw [hrest] at h; exact absurd h (by simp)
      | some bs =>
        rw [hrest] at h
        simp only [Option.some_inj] at h
        subst h
        cases j with
        | zero =>
          simp only [List.get?_cons_zero, Option.some_inj]
          constructor
          · intro hb; subst hb; exact ⟨a, rfl, by simpa using hfa⟩
          · rintro ⟨a2, ha2, hf2⟩
            subst ha2
            simp only [Nat.add_zero] at hf2
            rw [hfa] at hf2
            simpa using hf2
        | succ j =>
          simp only [List.get?_cons_succ]
          rw [ih (i + 1) bs hrest j b]
          constructor
          · rintro ⟨a2, ha2, hf2⟩
            refine ⟨a2, ha2, ?_⟩
            have e : i + 1 + j = i + (j + 1) := by omega
            rw [← e]; exact hf2
          · rintro ⟨a2, ha2, hf2⟩
            refine ⟨a2, ha2, ?_⟩
            have e : i + 1 + j = i + (j + 1) := by omega
            rw [e]; exact hf2

theorem countP_not_add {g : List (List GridCell)} :
    List.countP isFullRow g + (g.filter (fun r => ! isFullRow r)).length = g.length := by
  rw [← List.countP_eq_length_filter]
  have e : (fun r : List GridCell => ! isFullRow r) =
      (fun a : List GridCell => decide ¬ isFullRow a = true) := by
    funext a; cases h : isFullRow a <;> simp [h]
  rw [e, ← List.length_eq_countP_add_countP]

/-- C1 fails as stated: the universally quantified grid includes the empty
grid, whose rows vacuously all share a width, yet lineClear reads
grid[0].length and crashes there instead of returning a grid. -/
theorem claim_C1_counterexample :
    lineClear ([] : List (List GridCell)) = none := rfl

/-- C1 (amended to nonempty grids): for every nonempty grid whose rows all
have the same width, lineClear returns the number k of full rows together
with k fresh all-empty rows prepended to the non-full rows in their original
order, the total height being preserved; a row is full iff every cell is
non-empty. -/
theorem claim_C1 (g : List (List GridCell)) (w : Nat) (hne : g ≠ [])
    (hw : ∀ r ∈ g, r.length = w) :
    lineClear g =
      some (List.replicate (List.countP isFullRow g) (List.replicate w none) ++
          g.filter (fun r => ! isFullRow r),
        List.countP isFullRow g) ∧
    (List.replicate (List.countP isFullRow g) (List.replicate w none) ++
        g.filter (fun r => ! isFullRow r)).length = g.length ∧
    (∀ r : List GridCell, isFullRow r = true ↔ ∀ c ∈ r, c.isSome = true) := by
  have hk : g.length - (g.filter (fun r => ! isFullRow r)).length =
      List.countP isFullRow g := by
    have := countP_not_add (g := g)
    omega
  have hlen : (List.replicate (List.countP isFullRow g) (List.replicate w none) ++
      g.filter (fun r => ! isFullRow r)).length = g.length := by
    have := countP_not_add (g := g)
    simp [List.length_append, List.length_replicate]
    omega
  refine ⟨?_, hlen, fun r => by simp [isFullRow, List.all_eq_true]⟩
  cases g with
  | nil => exact absurd rfl hne
  | cons r0 rest =>
    have hw0 : r0.length = w := hw r0 (by simp)
    rw [lineClear]
    simp only [hw0, hk]

/-- Witness for C1 at the one-row full grid. -/
theorem claim_C1_witness :
    (lineClear [[some "a"]] =
      some (List.replicate (List.countP isFullRow [[some "a"]])
          (List.replicate 1 none) ++
          List.filter (fun r => ! isFullRow r) [[some "a"]],
        List.countP isFullRow [[some "a"]]) ∧
      (List.replicate (List.countP isFullRow [[some "a"]])
          (List.replicate 1 none) ++
          List.filter (fun r => ! isFullRow r) [[some "a"]]).length =
        [[some "a"]].length ∧
      (∀ r : List GridCell, isFullRow r = true ↔ ∀ c ∈ r, c.isSome = true)) :=
  claim_C1 [[some "a"]] 1 (by decide) (by decide)

/-- C2: for rowsCleared at most 4, calculateScore returns 0 at zero rows and
otherwise (level + 1) times the lookup entry 40, 100, 300 or 1200; including
the four concrete table checks of the specification. -/
theorem claim_C2 (level : Int) (rowsCleared : Nat) (h : rowsCleared ≤ 4) :
    calculateScore level rowsCleared =
      some (if rowsCleared = 0 then 0
        else (level + 1) * ([(40 : Int), 100, 300, 1200].getD (rowsCleared - 1) 0)) ∧
    calculateScore level 0 = some 0 ∧
    calculateScore 0 1 = some 40 ∧
    calculateScore 0 4 = some 1200 ∧
    calculateScore 2 2 = some 300 := by
  refine ⟨?_, rfl, rfl, rfl, rfl⟩
  interval_cases rowsCleared <;> simp [calculateScore]

/-- Witness for C2 at level 7 with 3 rows cleared. -/
theorem claim_C2_witness :
    (3 : Nat) ≤ 4 ∧
    (calculateScore 7 3 =
      some (if (3 : Nat) = 0 then 0
        else ((7 : Int) + 1) * ([(40 : Int), 100, 300, 1200].getD (3 - 1) 0)) ∧
      calculateScore 7 0 = some 0 ∧
      calculateScore 0 1 = some 40 ∧
      calculateScore 0 4 = some 1200 ∧
      calculateScore 2 2 = some 300) :=
  ⟨by decide, claim_C2 7 3 (by decide)⟩

/-- C4: on a game-ended state, the Tick action returns exactly the initial
state except that the high score becomes the larger of the old score and the
old high score; the initial state has the all-empty grid, zero score, level
one, no held piece and an unused hold. -/
theorem claim_C4 (t1 t2 r : Tetromino) (s : State) (h : s.gameEnd = true) :
    gameFlowApply t1 t2 r s =
      some { initialState t1 t2 with highScore := max s.score s.highScore } ∧
    (initialState t1 t2).grid = List.replicate 20 (List.replicate 10 none) ∧
    (initialState t1 t2).score = 0 ∧
    (initialState t1 t2).level = 1 ∧
    (initialState t1 t2).heldElement = none ∧
    (initialState t1 t2).usedHold = false := by
  have hg : (initialState t1 t2).grid = List.replicate 20 (List.replicate 10 none) := by
    show initialiseGrid (CANVAS_WIDTH / BLOCK_WIDTH) (CANVAS_HEIGHT / BLOCK_HEIGHT) = _
    decide
  refine ⟨?_, hg, rfl, rfl, rfl, rfl⟩
  have hmax : (if s.highScore < s.score then s.score else s.highScore) =
      max s.score s.highScore := by
    rcases le_or_lt s.score s.highScore with h1 | h1
    · rw [if_neg (not_lt.mpr h1), max_eq_right h1]
    · rw [if_pos h1, max_eq_left h1.le]
  rw [gameFlowApply, if_pos (by simp [h]), hmax]

/-- Witness for C4 at a game-over state with score 500 and high score 300. -/
theorem claim_C4_witness :
    gameOver500.gameEnd = true ∧
    (gameFlowApply O_TETROMINO O_TETROMINO O_TETROMINO gameOver500 =
      some { initialState O_TETROMINO O_TETROMINO with
        highScore := max gameOver500.score gameOver500.highScore } ∧
      (initialState O_TETROMINO O_TETROMINO).grid =
        List.replicate 20 (List.replicate 10 none) ∧
      (initialState O_TETROMINO O_TETROMINO).score = 0 ∧
      (initialState O_TETROMINO O_TETROMINO).level = 1 ∧
      (initialState O_TETROMINO O_TETROMINO).heldElement = none ∧
      (initialState O_TETROMINO O_TETROMINO).usedHold = false) :=
  ⟨rfl, claim_C4 O_TETROMINO O_TETROMINO O_TETROMINO gameOver500 rfl⟩

theorem canvasHeightDivBlock : CANVAS_HEIGHT / BLOCK_HEIGHT = (20 : Int) := by decide

theorem canvasWidthDivBlock : CANVAS_WIDTH / BLOCK_WIDTH = (10 : Int) := by decide

theorem blockHeightEq : BLOCK_HEIGHT = (20 : Int) := by decide

theorem gridTruthyAt_eq_occupied {grid : List (List GridCell)} {y x : Int}
    (h0 : 0 ≤ y) (h1 : y.toNat < grid.length) :
    gridTruthyAt grid y x = some (occupiedAt grid y x) := by
  obtain ⟨row, hrow⟩ : ∃ row, grid.get? y.toNat = some row :=
    ⟨grid.get ⟨y.toNat, h1⟩, List.get?_eq_get h1⟩
  unfold gridTruthyAt occupiedAt getInt
  rw [if_neg (not_lt.mpr h0), hrow]

theorem anyIdxM_isSome0 {α : Type} (f : Nat → α → Option Bool) (l : List α)
    (h : ∀ j a, l.get? j = some a → (f j a).isSome) : (anyIdxM f 0 l).isSome :=
  anyIdxM_isSome f l 0 (by simpa using h)

theorem anyIdxM_eq_true_iff0 {α : Type} (f : Nat → α → Option Bool) (l : List α)
    (h : ∀ j a, l.get? j = some a → (f j a).isSome) :
    (anyIdxM f 0 l = some true ↔ ∃ j a, l.get? j = some a ∧ f j a = some true) := by
  have := anyIdxM_eq_true_iff f l 0 (by simpa using h)
  simpa using this

theorem anyIdxM_eq_false_iff0 {α : Type} (f : Nat → α → Option Bool) (l : List α) :
    (anyIdxM f 0 l = some false ↔ ∀ j a, l.get? j = some a → f j a = some false) := by
  have := anyIdxM_eq_false_iff f l 0
  simpa using this

theorem allIdx_eq_true_iff0 {α : Type} (f : Nat → α → Bool) (l : List α) :
    (allIdx f 0 l = true ↔ ∀ j a, l.get? j = some a → f j a = true) := by
  have := allIdx_eq_true_iff f l 0
  simpa using this

theorem rotCell_isSome (s : State) (y x : Nat) (cell : Int)
    (hgrid : s.grid.length = 20) :
    ((if cell ≠ 0 then
        if s.currentTetromino.position.y + y < 0 then some true
        else if s.currentTetromino.position.y + y ≥ CANVAS_HEIGHT / BLOCK_HEIGHT then
          some true
        else if s.currentTetromino.position.x + x < 0 then some true
        else if s.currentTetromino.position.x + x ≥ CANVAS_WIDTH / BLOCK_WIDTH then
          some true
        else
          gridTruthyAt s.grid (s.currentTetromino.position.y + y)
            (s.currentTetromino.position.x + x)
      else some false) : Option Bool).isSome := by
  by_cases hc : cell = 0
  · simp [hc]
  · simp only [ne_eq, hc, not_false_eq_true, if_true]
    rw [canvasHeightDivBlock, canvasWidthDivBlock]
    by_cases h1 : s.currentTetromino.position.y + (y : Int) < 0
    · simp [h1]
    · rw [if_neg h1]
      by_cases h2 : s.currentTetromino.position.y + (y : Int) ≥ 20
      · simp [h2]
      · rw [if_neg h2]
        by_cases h3 : s.currentTetromino.position.x + (x : Int) < 0
        · simp [h3]
        · rw [if_neg h3]
          by_cases h4 : s.currentTetromino.position.x + (x : Int) ≥ 10
          · simp [h4]
          · rw [if_neg h4, gridTruthyAt_eq_occupied (by omega) (by omega)]
            simp

theorem rotCell_true_iff (s : State) (y x : Nat) (cell : Int)
    (hgrid : s.grid.length = 20) :
    ((if cell ≠ 0 then
        if s.currentTetromino.position.y + y < 0 then some true
        else if s.currentTetromino.position.y + y ≥ CANVAS_HEIGHT / BLOCK_HEIGHT then
          some true
        else if s.currentTetromino.position.x + x < 0 then some true
        else if s.currentTetromino.position.x + x ≥ CANVAS_WIDTH / BLOCK_WIDTH then
          some true
        else
          gridTruthyAt s.grid (s.currentTetromino.position.y + y)
            (s.currentTetromino.position.x + x)
      else some false) = some true) ↔
      (cell ≠ 0 ∧
        (s.currentTetromino.position.y + y < 0 ∨
         20 ≤ s.currentTetromino.position.y + y ∨
         s.currentTetromino.position.x + x < 0 ∨
         10 ≤ s.currentTetromino.position.x + x ∨
         occupiedAt s.grid (s.currentTetromino.position.y + y)
           (s.currentTetromino.position.x + x) = true)) := by
  by_cases hc : cell = 0
  · simp [hc]
  · simp only [ne_eq, hc, not_false_eq_true, if_true, true_and]
    rw [canvasHeightDivBlock, canvasWidthDivBlock]
    by_cases h1 : s.currentTetromino.position.y + (y : Int) < 0
    · simp [h1]
    · rw [if_neg h1]
      by_cases h2 : s.currentTetromino.position.y + (y : Int) ≥ 20
      · simp [h2]
      · rw [if_neg h2]
        by_cases h3 : s.currentTetromino.position.x + (x : Int) < 0
        · simp [h3]
        · rw [if_neg h3]
          by_cases h4 : s.currentTetromino.position.x + (x : Int) ≥ 10
          · simp [h4]
          · rw [if_neg h4, gridTruthyAt_eq_occupied (by omega) (by omega)]
            simp [h1, h2, h3, h4]

theorem collisionRotate_isSome (s : State) (shape : List (List Int))
    (hshape : s.currentTetromino.shapes.get? s.currentTetromino.rotation = some shape)
    (hgrid : s.grid.length = 20) :
    (collisionDetection s Direction.ROTATE).isSome := by
  simp only [collisionDetection, hshape]
  apply anyIdxM_isSome0
  intro j row hrow
  apply anyIdxM_isSome0
  intro k cell hcell
  exact rotCell_isSome s j k cell hgrid

theorem collisionRotate_true_iff (s : State) (shape : List (List Int))
    (hshape : s.currentTetromino.shapes.get? s.currentTetromino.rotation = some shape)
    (hgrid : s.grid.length = 20) :
    (collisionDetection s Direction.ROTATE = some true ↔
      ∃ y row x cell, shape.get? y = some row ∧ row.get? x = some cell ∧ cell ≠ 0 ∧
        (s.currentTetromino.position.y + y < 0 ∨
         20 ≤ s.currentTetromino.position.y + y ∨
         s.currentTetromino.position.x + x < 0 ∨
         10 ≤ s.currentTetromino.position.x + x ∨
         occupiedAt s.grid (s.currentTetromino.position.y + y)
           (s.currentTetromino.position.x + x) = true)) := by
  simp only [collisionDetection, hshape]
  rw [anyIdxM_eq_true_iff0 _ shape
    (fun j row hrow => anyIdxM_isSome0 _ row
      (fun k cell hcell => rotCell_isSome s j k cell hgrid))]
  constructor
  · rintro ⟨j, row, hrow, hinner⟩
    rw [anyIdxM_eq_true_iff0 _ row
      (fun k cell hcell => rotCell_isSome s j k cell hgrid)] at hinner
    obtain ⟨k, cell, hcell, hval⟩ := hinner
    obtain ⟨hc, hdis⟩ := (rotCell_true_iff s j k cell hgrid).mp hval
    exact ⟨j, row, k, cell, hrow, hcell, hc, hdis⟩
  · rintro ⟨y, row, x, cell, hrow, hcell, hc, hdis⟩
    refine ⟨y, row, hrow, ?_⟩
    rw [anyIdxM_eq_true_iff0 _ row
      (fun k cell hcell => rotCell_isSome s y k cell hgrid)]
    exact ⟨x, cell, hcell, (rotCell_true_iff s y x cell hgrid).mpr ⟨hc, hdis⟩⟩

/-- C8: with a valid rotation index (the data model invariant) and the
standard 20-row grid, the Rotate action either keeps the state unchanged when
some filled cell of the candidate rotated shape leaves the board or overlaps
an occupied cell, or otherwise only advances the rotation index to
(rotation + 1) mod shapes.length, leaving position, grid and every other
field unchanged: no wall kick is attempted. -/
theorem claim_C8 (s : State)
    (hrot : s.currentTetromino.rotation < s.currentTetromino.shapes.length)
    (hgrid : s.grid.length = 20) :
    (rotationBlocked s → rotateApply s = some s) ∧
    (¬ rotationBlocked s →
      rotateApply s = some { s with currentTetromino :=
        { s.currentTetromino with rotation :=
          (s.currentTetromino.rotation + 1) % s.currentTetromino.shapes.length } }) := by
  have hlen : 0 < s.currentTetromino.shapes.length :=
    lt_of_le_of_lt (Nat.zero_le _) hrot
  have hnewrot : (if s.currentTetromino.rotation + 1 < s.currentTetromino.shapes.length
      then s.currentTetromino.rotation + 1 else 0) =
      (s.currentTetromino.rotation + 1) % s.currentTetromino.shapes.length := by
    by_cases h : s.currentTetromino.rotation + 1 < s.currentTetromino.shapes.length
    · rw [if_pos h, Nat.mod_eq_of_lt h]
    · have he : s.currentTetromino.rotation + 1 = s.currentTetromino.shapes.length := by
        omega
      rw [if_neg h, he, Nat.mod_self]
  have hmod : (s.currentTetromino.rotation + 1) % s.currentTetromino.shapes.length <
      s.currentTetromino.shapes.length := Nat.mod_lt _ hlen
  obtain ⟨cand, hcand⟩ : ∃ cs,
      s.currentTetromino.shapes.get?
        ((s.currentTetromino.rotation + 1) % s.currentTetromino.shapes.length) = some cs :=
    ⟨_, List.get?_eq_get hmod⟩
  have hshapeNS : ({ s with currentTetromino :=
      { s.currentTetromino with rotation :=
        (s.currentTetromino.rotation + 1) % s.currentTetromino.shapes.length } }
        : State).currentTetromino.shapes.get?
      ({ s with currentTetromino :=
      { s.currentTetromino with rotation :=
        (s.currentTetromino.rotation + 1) % s.currentTetromino.shapes.length } }
        : State).currentTetromino.rotation = some cand := hcand
  have hsome := collisionRotate_isSome _ cand hshapeNS hgrid
  have hrb : rotationBlocked s ↔
      (collisionDetection { s with currentTetromino :=
        { s.currentTetromino with rotation :=
          (s.currentTetromino.rotation + 1) % s.currentTetromino.shapes.length } }
        Direction.ROTATE = some true) := by
    rw [collisionRotate_true_iff _ cand hshapeNS hgrid]
    unfold rotationBlocked candidateRotation
    rw [List.getD_eq_get?, hcand]
    rfl
  have happ : rotateApply s =
      (match collisionDetection { s with currentTetromino :=
          { s.currentTetromino with rotation :=
            (s.currentTetromino.rotation + 1) % s.currentTetromino.shapes.length } }
          Direction.ROTATE with
        | none => none
        | some true => some s
        | some false => some { s with currentTetromino :=
            { s.currentTetromino with rotation :=
              (s.currentTetromino.rotation + 1) % s.currentTetromino.shapes.length } }) := by
    simp only [rotateApply]
    rw [hnewrot]
  cases hcol : collisionDetection { s with currentTetromino :=
      { s.currentTetromino with rotation :=
        (s.currentTetromino.rotation + 1) % s.currentTetromino.shapes.length } }
      Direction.ROTATE with
  | none => rw [hcol] at hsome; exact absurd hsome (by simp)
  | some b =>
    cases b with
    | true =>
      refine ⟨fun _ => by rw [happ, hcol], fun hnb => ?_⟩
      exact absurd (hrb.mpr hcol) hnb
    | false =>
      refine ⟨fun hb => ?_, fun _ => by rw [happ, hcol]⟩
      have := hrb.mp hb
      rw [hcol] at this
      exact absurd this (by simp)

/-- Witness for C8 at the initial O-piece state. -/
theorem claim_C8_witness :
    (initialState O_TETROMINO O_TETROMINO).currentTetromino.rotation <
      (initialState O_TETROMINO O_TETROMINO).currentTetromino.shapes.length ∧
    (initialState O_TETROMINO O_TETROMINO).grid.length = 20 ∧
    ((rotationBlocked (initialState O_TETROMINO O_TETROMINO) →
      rotateApply (initialState O_TETROMINO O_TETROMINO) =
        some (initialState O_TETROMINO O_TETROMINO)) ∧
     (¬ rotationBlocked (initialState O_TETROMINO O_TETROMINO) →
      rotateApply (initialState O_TETROMINO O_TETROMINO) =
        some { initialState O_TETROMINO O_TETROMINO with currentTetromino :=
          { (initialState O_TETROMINO O_TETROMINO).currentTetromino with rotation :=
            ((initialState O_TETROMINO O_TETROMINO).currentTetromino.rotation + 1) %
              (initialState O_TETROMINO O_TETROMINO).currentTetromino.shapes.length } })) :=
  ⟨by decide, by decide,
    claim_C8 (initialState O_TETROMINO O_TETROMINO) (by decide) (by decide)⟩

/-- C10: the LEFT and RIGHT collision cases index the grid row at the
unshifted vertical coordinate with no vertical bounds check; whenever every
filled cell of the active shape lies in rows 0..19 and the grid has its 20
rows, every such row read is in bounds, so the check never crashes (the
embedded none branch is unreachable and the function is total there). -/
theorem claim_C10 (s : State) (shape : List (List Int))
    (hshape : s.currentTetromino.shapes.get? s.currentTetromino.rotation = some shape)
    (hrows : filledRowsWithin shape s.currentTetromino.position.y = true)
    (hgrid : s.grid.length = 20) :
    (collisionDetection s Direction.LEFT).isSome ∧
    (collisionDetection s Direction.RIGHT).isSome := by
  have hb := (allIdx_eq_true_iff0 _ shape).mp hrows
  have hbounds : ∀ j row, shape.get? j = some row → ∀ k cell, row.get? k = some cell →
      cell ≠ 0 → 0 ≤ s.currentTetromino.position.y + (j : Int) ∧
        s.currentTetromino.position.y + (j : Int) < 20 := by
    intro j row hrow k cell hcell hc
    have h2 := (allIdx_eq_true_iff0 _ row).mp (hb j row hrow) k cell hcell
    rw [if_neg hc] at h2
    simp only [Bool.and_eq_true, decide_eq_true_eq] at h2
    exact h2
  constructor
  · simp only [collisionDetection, hshape]
    apply anyIdxM_isSome0
    intro j row hrow
    apply anyIdxM_isSome0
    intro k cell hcell
    by_cases hc : cell = 0
    · simp [hc]
    · simp only [ne_eq, hc, not_false_eq_true, if_true]
      by_cases h1 : s.currentTetromino.position.x + (k : Int) - 1 < 0
      · simp [h1]
      · rw [if_neg h1]
        obtain ⟨hy0, hy1⟩ := hbounds j row hrow k cell hcell hc
        rw [gridTruthyAt_eq_occupied hy0 (by omega)]
        simp
  · simp only [collisionDetection, hshape]
    apply anyIdxM_isSome0
    intro j row hrow
    apply anyIdxM_isSome0
    intro k cell hcell
    by_cases hc : cell = 0
    · simp [hc]
    · simp only [ne_eq, hc, not_false_eq_true, if_true]
      by_cases h1 : s.currentTetromino.position.x + (k : Int) + 1 ≥ CANVAS_WIDTH / BLOCK_WIDTH
      · simp [h1]
      · rw [if_neg h1]
        obtain ⟨hy0, hy1⟩ := hbounds j row hrow k cell hcell hc
        rw [gridTruthyAt_eq_occupied hy0 (by omega)]
        simp

/-- Witness for C10 at the initial O-piece state. -/
theorem claim_C10_witness :
    (initialState O_TETROMINO O_TETROMINO).currentTetromino.shapes.get?
      (initialState O_TETROMINO O_TETROMINO).currentTetromino.rotation =
        some [[1, 1], [1, 1]] ∧
    filledRowsWithin [[1, 1], [1, 1]]
      (initialState O_TETROMINO O_TETROMINO).currentTetromino.position.y = true ∧
    (initialState O_TETROMINO O_TETROMINO).grid.length = 20 ∧
    ((collisionDetection (initialState O_TETROMINO O_TETROMINO)
        Direction.LEFT).isSome ∧
     (collisionDetection (initialState O_TETROMINO O_TETROMINO)
        Direction.RIGHT).isSome) :=
  ⟨by decide, by decide, by decide,
    claim_C10 (initialState O_TETROMINO O_TETROMINO) [[1, 1], [1, 1]]
      (by decide) (by decide) (by decide)⟩

theorem canvasHeightEq : CANVAS_HEIGHT = 400 := rfl

theorem downCell_isSome (st : State) (y x : Nat) (cell : Int)
    (hgrid : st.grid.length = 20)
    (hy : cell ≠ 0 → 0 ≤ st.currentTetromino.position.y + y) :
    ((if cell ≠ 0 then
        if (st.currentTetromino.position.y + y + 1) * BLOCK_HEIGHT ≥ CANVAS_HEIGHT then
          some true
        else
          gridTruthyAt st.grid (st.currentTetromino.position.y + y + 1)
            (st.currentTetromino.position.x + x)
      else some false) : Option Bool).isSome := by
  by_cases hc : cell = 0
  · simp [hc]
  · simp only [ne_eq, hc, not_false_eq_true, if_true]
    rw [blockHeightEq, canvasHeightEq]
    by_cases h1 : (st.currentTetromino.position.y + y + 1) * 20 ≥ 400
    · simp [h1]
    · rw [if_neg h1]
      have hy0 := hy hc
      rw [gridTruthyAt_eq_occupied (by omega) (by omega)]
      simp

theorem collisionDown_isSome (st : State) (shape : List (List Int))
    (hshape : st.currentTetromino.shapes.get? st.currentTetromino.rotation = some shape)
    (hgrid : st.grid.length = 20)
    (hys : ∀ j row k cell, shape.get? j = some row → row.get? k = some cell →
      cell ≠ 0 → 0 ≤ st.currentTetromino.position.y + (j : Int)) :
    (collisionDetection st Direction.DOWN).isSome := by
  simp only [collisionDetection, hshape]
  apply anyIdxM_isSome0
  intro j row hrow
  apply anyIdxM_isSome0
  intro k cell hcell
  exact downCell_isSome st j k cell hgrid (hys j row k cell hrow hcell)

theorem collisionDown_false_bound (st : State) (shape : List (List Int))
    (hshape : st.currentTetromino.shapes.get? st.currentTetromino.rotation = some shape)
    (hfalse : collisionDetection st Direction.DOWN = some false) :
    ∀ j row k cell, shape.get? j = some row → row.get? k = some cell → cell ≠ 0 →
      st.currentTetromino.position.y + (j : Int) + 1 < 20 := by
  simp only [collisionDetection, hshape] at hfalse
  rw [anyIdxM_eq_false_iff0] at hfalse
  intro j row k cell hrow hcell hc
  have h2 := (anyIdxM_eq_false_iff0 _ row).mp (hfalse j row hrow) k cell hcell
  simp only [ne_eq, hc, not_false_eq_true, if_true] at h2
  rw [blockHeightEq, canvasHeightEq] at h2
  by_contra hge
  rw [if_pos (by omega)] at h2
  exact absurd h2 (by simp)

theorem collisionDown_true_bottom (st : State) (shape : List (List Int))
    (hshape : st.currentTetromino.shapes.get? st.currentTetromino.rotation = some shape)
    (hgrid : st.grid.length = 20)
    (hys : ∀ j row k cell, shape.get? j = some row → row.get? k = some cell →
      cell ≠ 0 → 0 ≤ st.currentTetromino.position.y + (j : Int))
    (hexists : ∃ j row k cell, shape.get? j = some row ∧ row.get? k = some cell ∧
      cell ≠ 0 ∧ 20 ≤ st.currentTetromino.position.y + (j : Int) + 1) :
    collisionDetection st Direction.DOWN = some true := by
  simp only [collisionDetection, hshape]
  rw [anyIdxM_eq_true_iff0 _ shape
    (fun j row hrow => anyIdxM_isSome0 _ row
      (fun k cell hcell => downCell_isSome st j k cell hgrid
        (hys j row k cell hrow hcell)))]
  obtain ⟨j, row, k, cell, hrow, hcell, hc, hbot⟩ := hexists
  refine ⟨j, row, hrow, ?_⟩
  rw [anyIdxM_eq_true_iff0 _ row
    (fun k cell hcell => downCell_isSome st j k cell hgrid
      (hys j row k cell hrow hcell))]
  refine ⟨k, cell, hcell, ?_⟩
  simp only [ne_eq, hc, not_false_eq_true, if_true]
  rw [blockHeightEq, canvasHeightEq, if_pos (by omega)]

theorem bumpIter_succ (n : Nat) (s : State) :
    bumpIter (n + 1) s = bump (bumpIter n s) := by
  induction n generalizing s with
  | zero => rfl
  | succ n ih =>
    show bumpIter (n + 1) (bump s) = bump (bumpIter (n + 1) s)
    rw [ih (bump s)]
    rfl

theorem bumpIter_fields (n : Nat) (s : State) :
    (bumpIter n s).currentTetromino.shapes = s.currentTetromino.shapes ∧
    (bumpIter n s).currentTetromino.rotation = s.currentTetromino.rotation ∧
    (bumpIter n s).currentTetromino.position.x = s.currentTetromino.position.x ∧
    (bumpIter n s).currentTetromino.position.y =
      s.currentTetromino.position.y + (n : Int) ∧
    (bumpIter n s).grid = s.grid := by
  induction n generalizing s with
  | zero => simp [bumpIter]
  | succ n ih =>
    rw [show bumpIter (n + 1) s = bumpIter n (bump s) from rfl]
    obtain ⟨h1, h2, h3, h4, h5⟩ := ih (bump s)
    refine ⟨?_, ?_, ?_, ?_, ?_⟩
    · rw [h1]; rfl
    · rw [h2]; rfl
    · rw [h3]; rfl
    · rw [h4]
      show s.currentTetromino.position.y + 1 + (n : Int) = _
      push_cast
      ring
    · rw [h5]; rfl

theorem moveTetrominoDown_of_false (r : Tetromino) (st : State)
    (h : collisionDetection st Direction.DOWN = some false) :
    moveTetrominoDown r st = some (bump st) := by
  simp only [moveTetrominoDown, h]
  rfl

theorem dropFuel_false_step (r : Tetromino) (f : Nat) (st : State)
    (h : collisionDetection st Direction.DOWN = some false) :
    dropFuel r (f + 1) st = dropFuel r f (bump st) := by
  rw [dropFuel, h, moveTetrominoDown_of_false r st h]

theorem dropFuel_true_step (r : Tetromino) (f : Nat) (st : State)
    (h : collisionDetection st Direction.DOWN = some true) :
    dropFuel r (f + 1) st = moveTetrominoDown r st := by
  rw [dropFuel, h]

theorem zeroShape_collisionDown (s : State)
    (hsh : s.currentTetromino.shapes = [[[0]]])
    (hrot : s.currentTetromino.rotation = 0) :
    collisionDetection s Direction.DOWN = some false := by
  have hshape : s.currentTetromino.shapes.get? s.currentTetromino.rotation =
      some [[0]] := by rw [hsh, hrot]; rfl
  simp only [collisionDetection, hshape]
  simp [anyIdxM]

/-- C3 fails as stated: a state whose current piece has a rotation shape with
no filled cell vacuously satisfies the precondition (all its filled cells lie
within the 10 by 20 grid), yet no iterate of the down step ever reports a
DOWN collision, so the hard drop recursion of Drop.apply never reaches a
locking step: the claimed bound of 20 down-steps fails (the recursion in fact
never terminates). -/
theorem claim_C3_counterexample :
    ¬ ∃ n, n + 1 ≤ 20 ∧
      collisionDetection (bumpIter n zeroShapeState) Direction.DOWN = some true := by
  rintro ⟨n, hle, htrue⟩
  have hf := zeroShape_collisionDown (bumpIter n zeroShapeState)
    ((bumpIter_fields n zeroShapeState).1.trans rfl)
    ((bumpIter_fields n zeroShapeState).2.1.trans rfl)
  rw [hf] at htrue
  exact absurd htrue (by simp)

/-- C3 (amended): whenever the active shape of the current piece has at least
one filled cell and every filled cell lies within the 10 by 20 grid, the hard
drop performs some number n of non-locking down steps with n + 1 at most 20,
the state after those n steps detects the DOWN collision (every earlier state
does not), and Drop with fuel 20 ends by performing the locking down step
from that state. -/
theorem claim_C3 (r : Tetromino) (s : State) (shape : List (List Int))
    (hshape : s.currentTetromino.shapes.get? s.currentTetromino.rotation = some shape)
    (hfill : shapeHasFilledCell shape = true)
    (hin : filledCellsWithin shape s.currentTetromino.position = true)
    (hgrid : s.grid.length = 20) :
    ∃ n, n + 1 ≤ 20 ∧
      collisionDetection (bumpIter n s) Direction.DOWN = some true ∧
      (∀ m, m < n → collisionDetection (bumpIter m s) Direction.DOWN = some false) ∧
      dropFuel r 20 s = moveTetrominoDown r (bumpIter n s) := by
  have hbounds : ∀ j row k cell, shape.get? j = some row → row.get? k = some cell →
      cell ≠ 0 → 0 ≤ s.currentTetromino.position.y + (j : Int) ∧
        s.currentTetromino.position.y + (j : Int) < 20 := by
    intro j row k cell hrow hcell hc
    have h2 := (allIdx_eq_true_iff0 _ row).mp
      ((allIdx_eq_true_iff0 _ shape).mp hin j row hrow) k cell hcell
    rw [if_neg hc] at h2
    simp only [Bool.and_eq_true, decide_eq_true_eq] at h2
    exact ⟨h2.1.2, h2.2⟩
  obtain ⟨y0, row0, x0, c0, hrow0, hcell0, hc0⟩ : ∃ y row x cell,
      shape.get? y = some row ∧ row.get? x = some cell ∧ cell ≠ 0 := by
    rw [shapeHasFilledCell, List.any_eq_true] at hfill
    obtain ⟨row, hrowmem, hrowany⟩ := hfill
    rw [List.any_eq_true] at hrowany
    obtain ⟨cell, hcellmem, hcz⟩ := hrowany
    obtain ⟨y, hy⟩ := List.mem_iff_get?.mp hrowmem
    obtain ⟨x, hx⟩ := List.mem_iff_get?.mp hcellmem
    exact ⟨y, row, x, cell, hy, hx, by simpa using hcz⟩
  have hshapeM : ∀ m, (bumpIter m s).currentTetromino.shapes.get?
      (bumpIter m s).currentTetromino.rotation = some shape := by
    intro m
    rw [(bumpIter_fields m s).1, (bumpIter_fields m s).2.1]
    exact hshape
  have hgridM : ∀ m, (bumpIter m s).grid.length = 20 := by
    intro m
    rw [(bumpIter_fields m s).2.2.2.2]
    exact hgrid
  have hysM : ∀ m, ∀ j row k cell, shape.get? j = some row → row.get? k = some cell →
      cell ≠ 0 → 0 ≤ (bumpIter m s).currentTetromino.position.y + (j : Int) := by
    intro m j row k cell hrow hcell hc
    rw [(bumpIter_fields m s).2.2.2.1]
    have h1 := (hbounds j row k cell hrow hcell hc).1
    have hm : (0 : Int) ≤ (m : Int) := Int.natCast_nonneg m
    omega
  have hdsM : ∀ m, (collisionDetection (bumpIter m s) Direction.DOWN).isSome :=
    fun m => collisionDown_isSome _ shape (hshapeM m) (hgridM m) (hysM m)
  have hy0b := hbounds y0 row0 x0 c0 hrow0 hcell0 hc0
  have hPstar : collisionDetection
      (bumpIter (19 - (s.currentTetromino.position.y + (y0 : Int))).toNat s)
      Direction.DOWN = some true := by
    apply collisionDown_true_bottom _ shape (hshapeM _) (hgridM _) (hysM _)
    refine ⟨y0, row0, x0, c0, hrow0, hcell0, hc0, ?_⟩
    rw [(bumpIter_fields _ s).2.2.2.1]
    omega
  have hex : ∃ n, collisionDetection (bumpIter n s) Direction.DOWN = some true :=
    ⟨_, hPstar⟩
  have hfindle : Nat.find hex ≤ (19 - (s.currentTetromino.position.y + (y0 : Int))).toNat :=
    Nat.find_min' hex hPstar
  have hstarle : (19 - (s.currentTetromino.position.y + (y0 : Int))).toNat ≤ 19 := by
    omega
  have hfalse : ∀ m, m < Nat.find hex →
      collisionDetection (bumpIter m s) Direction.DOWN = some false := by
    intro m hm
    have hnt := Nat.find_min hex hm
    have hs := hdsM m
    cases hv : collisionDetection (bumpIter m s) Direction.DOWN with
    | none => rw [hv] at hs; exact absurd hs (by simp)
    | some b =>
      cases b with
      | true => exact absurd hv hnt
      | false => rfl
  have hrun : ∀ i, i ≤ Nat.find hex →
      dropFuel r 20 s = dropFuel r (20 - i) (bumpIter i s) := by
    intro i
    induction i with
    | zero => intro _; rfl
    | succ i ih =>
      intro hle2
      have hi : i < Nat.find hex := by omega
      have h20 : 20 - i = (20 - (i + 1)) + 1 := by omega
      rw [ih (by omega), h20, dropFuel_false_step r _ _ (hfalse i hi), ← bumpIter_succ]
  refine ⟨Nat.find hex, by omega, Nat.find_spec hex, hfalse, ?_⟩
  rw [hrun (Nat.find hex) le_rfl]
  have h20 : 20 - Nat.find hex = (20 - Nat.find hex - 1) + 1 := by omega
  rw [h20, dropFuel_true_step r _ _ (Nat.find_spec hex)]

/-- Witness for C3: the initial O piece hard-drops to the floor. -/
theorem claim_C3_witness :
    (initialState O_TETROMINO O_TETROMINO).currentTetromino.shapes.get?
      (initialState O_TETROMINO O_TETROMINO).currentTetromino.rotation =
        some [[1, 1], [1, 1]] ∧
    shapeHasFilledCell [[1, 1], [1, 1]] = true ∧
    filledCellsWithin [[1, 1], [1, 1]]
      (initialState O_TETROMINO O_TETROMINO).currentTetromino.position = true ∧
    (initialState O_TETROMINO O_TETROMINO).grid.length = 20 ∧
    (∃ n, n + 1 ≤ 20 ∧
      collisionDetection (bumpIter n (initialState O_TETROMINO O_TETROMINO))
        Direction.DOWN = some true ∧
      (∀ m, m < n → collisionDetection
        (bumpIter m (initialState O_TETROMINO O_TETROMINO))
        Direction.DOWN = some false) ∧
      dropFuel O_TETROMINO 20 (initialState O_TETROMINO O_TETROMINO) =
        moveTetrominoDown O_TETROMINO
          (bumpIter n (initialState O_TETROMINO O_TETROMINO))) :=
  ⟨by decide, by decide, by decide, by decide,
    claim_C3 O_TETROMINO (initialState O_TETROMINO O_TETROMINO) [[1, 1], [1, 1]]
      (by decide) (by decide) (by decide) (by decide)⟩

theorem mapIdxM_get?_iff0 {α β : Type} (f : Nat → α → Option β) (l : List α)
    (l' : List β) (h : mapIdxM f 0 l = some l') : ∀ j b,
    (l'.get? j = some b ↔ ∃ a, l.get? j = some a ∧ f j a = some b) := by
  have := mapIdxM_get?_iff f l 0 l' h
  simpa using this

theorem place_get? {g : List (List GridCell)} {t : Tetromino}
    {g' : List (List GridCell)} (h : placeTetrominoOnGrid g t = some g')
    {j : Nat} {r' : List GridCell} (hj : g'.get? j = some r') :
    ∃ r, g.get? j = some r ∧ mapIdxM (placeCell t j) 0 r = some r' :=
  (mapIdxM_get?_iff0 _ g g' h j r').mp hj

theorem placeCell_outside (t : Tetromino) (shape : List (List Int))
    (hsr : t.shapes.get? t.rotation = some shape) (ri ci : Nat) (cell : GridCell)
    (hout : (ri : Int) - t.position.y < 0 ∨
      (shape.length : Int) ≤ (ri : Int) - t.position.y) :
    placeCell t ri ci cell = some cell := by
  simp only [placeCell, hsr]
  rw [if_neg]
  rintro ⟨c1, c2, -, -⟩
  omega

theorem placeRow_outside (t : Tetromino) (shape : List (List Int))
    (hsr : t.shapes.get? t.rotation = some shape) (ri : Nat)
    (hout : (ri : Int) - t.position.y < 0 ∨
      (shape.length : Int) ≤ (ri : Int) - t.position.y) :
    ∀ (row : List GridCell) (i : Nat), mapIdxM (placeCell t ri) i row = some row := by
  intro row
  induction row with
  | nil => intro i; rfl
  | cons c cs ih =>
    intro i
    rw [mapIdxM, placeCell_outside t shape hsr ri i c hout, ih (i + 1)]

theorem placed_row_full_window (t : Tetromino) (shape : List (List Int))
    (hsr : t.shapes.get? t.rotation = some shape) (ri : Nat)
    (r r' : List GridCell) (hrow : mapIdxM (placeCell t ri) 0 r = some r')
    (hnf : isFullRow r = false) (hfull : isFullRow r' = true) :
    0 ≤ (ri : Int) - t.position.y ∧
      (ri : Int) - t.position.y < (shape.length : Int) := by
  rcases lt_or_ge ((ri : Int) - t.position.y) 0 with h | h
  · exfalso
    rw [placeRow_outside t shape hsr ri (Or.inl h) r 0] at hrow
    simp only [Option.some_inj] at hrow
    rw [← hrow] at hfull
    rw [hfull] at hnf
    exact absurd hnf (by simp)
  rcases lt_or_ge ((ri : Int) - t.position.y) ((shape.length : Int)) with h2 | h2
  · exact ⟨h, h2⟩
  · exfalso
    rw [placeRow_outside t shape hsr ri (Or.inr h2) r 0] at hrow
    simp only [Option.some_inj] at hrow
    rw [← hrow] at hfull
    rw [hfull] at hnf
    exact absurd hnf (by simp)

theorem place_count_full (t : Tetromino) (shape : List (List Int))
    (hsr : t.shapes.get? t.rotation = some shape) :
    ∀ (g : List (List GridCell)) (i : Nat) (g' : List (List GridCell)),
      mapIdxM (fun ri row => mapIdxM (placeCell t ri) 0 row) i g = some g' →
      (∀ r ∈ g, isFullRow r = false) →
      (List.countP isFullRow g' : Int) ≤
          Int.toNat (t.position.y + shape.length - i) ∧
        List.countP isFullRow g' ≤ shape.length := by
  intro g
  induction g with
  | nil =>
    intro i g' h _
    simp only [mapIdxM, Option.some_inj] at h
    subst h
    simp
  | cons r rest ih =>
    intro i g' h hnf
    rw [mapIdxM] at h
    cases hr : mapIdxM (placeCell t i) 0 r with
    | none => rw [hr] at h; exact absurd h (by simp)
    | some r' =>
      rw [hr] at h
      cases hrest : mapIdxM (fun ri row => mapIdxM (placeCell t ri) 0 row) (i + 1) rest with
      | none => rw [hrest] at h; exact absurd h (by simp)
      | some rest' =>
        rw [hrest] at h
        simp only [Option.some_inj] at h
        subst h
        rw [List.countP_cons]
        obtain ⟨ih1, ih2⟩ := ih (i + 1) rest' hrest
          (fun x hx => hnf x (List.mem_cons_of_mem _ hx))
        by_cases hfull : isFullRow r' = true
        · obtain ⟨hw1, hw2⟩ := placed_row_full_window t shape hsr i r r' hr
            (by
              have := hnf r (List.mem_cons_self _ _)
              exact this) hfull
          rw [if_pos hfull]
          constructor
          · push_cast
            omega
          · omega
        · rw [if_neg hfull]
          constructor
          · push_cast at ih1 ⊢
            omega
          · omega

theorem place_length {g : List (List GridCell)} {t : Tetromino}
    {g' : List (List GridCell)} (h : placeTetrominoOnGrid g t = some g') :
    g'.length = g.length :=
  mapIdxM_length _ g 0 g' h

theorem place_widths {g : List (List GridCell)} {t : Tetromino}
    {g' : List (List GridCell)} (h : placeTetrominoOnGrid g t = some g')
    (hw : ∀ r ∈ g, r.length = 10) : ∀ r' ∈ g', r'.length = 10 := by
  intro r' hr'
  obtain ⟨j, hj⟩ := List.mem_iff_get?.mp hr'
  obtain ⟨r, hr, hrow⟩ := place_get? h hj
  rw [mapIdxM_length _ r 0 r' hrow]
  exact hw r (List.get?_mem hr)

theorem lineClear_eq {g : List (List GridCell)} {r0 : List GridCell}
    {rest : List (List GridCell)} (hg : g = r0 :: rest) :
    lineClear g = some (List.replicate (List.countP isFullRow g)
      (List.replicate r0.length none) ++ g.filter (fun r => ! isFullRow r),
      List.countP isFullRow g) := by
  subst hg
  have hk : (r0 :: rest).length -
      ((r0 :: rest).filter (fun r => ! isFullRow r)).length =
      List.countP isFullRow (r0 :: rest) := by
    have := countP_not_add (g := r0 :: rest)
    omega
  simp only [lineClear, hk]

theorem isFullRow_replicate_none (m : Nat) (hm : m ≠ 0) :
    isFullRow (List.replicate m (none : GridCell)) = false := by
  cases m with
  | zero => exact absurd rfl hm
  | succ m => simp [isFullRow, List.replicate_succ]

theorem calculateScore_isSome (lvl : Int) (k : Nat) (hk : k ≤ 4) :
    (calculateScore lvl k).isSome := by
  interval_cases k <;> simp [calculateScore]

theorem catalog_shape_height : ∀ c ∈ Tetrominos, ∀ sh ∈ c.shapes, sh.length ≤ 4 := by
  decide

theorem place_some_shape {g : List (List GridCell)} {t : Tetromino}
    {g' : List (List GridCell)} (h : placeTetrominoOnGrid g t = some g')
    {r0 : List GridCell} {rest : List (List GridCell)} (hg : g = r0 :: rest)
    {c0 : GridCell} {cs : List GridCell} (hr : r0 = c0 :: cs) :
    ∃ shape, t.shapes.get? t.rotation = some shape := by
  subst hg
  subst hr
  rw [placeTetrominoOnGrid, mapIdxM] at h
  cases hrow : mapIdxM (placeCell t 0) 0 (c0 :: cs) with
  | none => rw [hrow] at h; exact absurd h (by simp)
  | some r' =>
    rw [mapIdxM] at hrow
    cases hcell : placeCell t 0 0 c0 with
    | none => rw [hcell] at hrow; exact absurd hrow (by simp)
    | some c' =>
      rw [placeCell] at hcell
      cases hsh : t.shapes.get? t.rotation with
      | none => rw [hsh] at hcell; exact absurd hcell (by simp)
      | some shape => exact ⟨shape, rfl⟩

theorem inv_reset (t1 t2 : Tetromino) (h1 : t1 ∈ Tetrominos) (h2 : t2 ∈ Tetrominos)
    (hs : Int) : StateInv { initialState t1 t2 with highScore := hs } := by
  refine ⟨⟨?_, ?_⟩, ?_, ⟨t1, h1, rfl⟩, ⟨t2, h2, rfl⟩, ?_, Or.inl ⟨rfl, rfl⟩⟩
  · show (initialiseGrid (CANVAS_WIDTH / BLOCK_WIDTH)
      (CANVAS_HEIGHT / BLOCK_HEIGHT)).length = 20
    decide
  · show ∀ r ∈ initialiseGrid (CANVAS_WIDTH / BLOCK_WIDTH)
      (CANVAS_HEIGHT / BLOCK_HEIGHT), r.length = 10
    decide
  · show ∀ r ∈ initialiseGrid (CANVAS_WIDTH / BLOCK_WIDTH)
      (CANVAS_HEIGHT / BLOCK_HEIGHT), isFullRow r = false
    decide
  · intro t ht
    simp [initialState] at ht

theorem inv_init (t1 t2 : Tetromino) (h1 : t1 ∈ Tetrominos) (h2 : t2 ∈ Tetrominos) :
    StateInv (initialState t1 t2) :=
  inv_reset t1 t2 h1 h2 0

theorem inv_moveTetrominoDown {r : Tetromino} {s s' : State}
    (hinv : StateInv s) (hr : r ∈ Tetrominos)
    (h : moveTetrominoDown r s = some s') : StateInv s' := by
  obtain ⟨⟨hlen, hwid⟩, hnf, hcur, hnext, hheld, hsm⟩ := hinv
  simp only [moveTetrominoDown] at h
  cases hcol : collisionDetection s Direction.DOWN with
  | none => simp only [hcol] at h; exact absurd h (by simp)
  | some b =>
    simp only [hcol] at h
    cases b with
    | false =>
      simp only [Option.some_inj] at h
      subst h
      exact ⟨⟨hlen, hwid⟩, hnf, hcur, hnext, hheld, hsm⟩
    | true =>
      cases hplace : placeTetrominoOnGrid s.grid s.currentTetromino with
      | none => simp only [hplace] at h; exact absurd h (by simp)
      | some placed =>
        simp only [hplace] at h
        cases hlc : lineClear placed with
        | none => simp only [hlc] at h; exact absurd h (by simp)
        | some pr =>
          obtain ⟨newGrid, k⟩ := pr
          simp only [hlc] at h
          cases hto : topOut newGrid with
          | none => simp only [hto] at h; exact absurd h (by simp)
          | some ge =>
            cases hcs : calculateScore s.level k with
            | none => simp only [hto, hcs] at h; exact absurd h (by simp)
            | some pts =>
              simp only [hto, hcs, Option.some_inj] at h
              subst h
              have hplen : placed.length = 20 := by
                rw [place_length hplace, hlen]
              have hpwid : ∀ r' ∈ placed, r'.length = 10 := place_widths hplace hwid
              obtain ⟨r0, rest, hg⟩ : ∃ r0 rest, placed = r0 :: rest := by
                cases placed with
                | nil => simp at hplen
                | cons a b => exact ⟨a, b, rfl⟩
              have hr0w : r0.length = 10 := hpwid r0 (hg ▸ List.mem_cons_self _ _)
              rw [lineClear_eq hg] at hlc
              simp only [Option.some_inj, Prod.mk.injEq] at hlc
              obtain ⟨hng, hkk⟩ := hlc
              have hcount := countP_not_add (g := placed)
              refine ⟨⟨?_, ?_⟩, ?_, hnext, ⟨r, hr, rfl⟩, hheld, Or.inr rfl⟩
              · show newGrid.length = 20
                rw [← hng]
                simp only [List.length_append, List.length_replicate,
                  List.countP_eq_length_filter]
                rw [List.countP_eq_length_filter] at hcount
                omega
              · show ∀ row ∈ newGrid, row.length = 10
                intro row hrow
                rw [← hng] at hrow
                rcases List.mem_append.mp hrow with hm | hm
                · rw [(List.mem_replicate.mp hm).2, List.length_replicate, hr0w]
                · exact hpwid row (List.mem_filter.mp hm).1
              · show ∀ row ∈ newGrid, isFullRow row = false
                intro row hrow
                rw [← hng] at hrow
                rcases List.mem_append.mp hrow with hm | hm
                · rw [(List.mem_replicate.mp hm).2]
                  exact isFullRow_replicate_none r0.length (by omega)
                · have := (List.mem_filter.mp hm).2
                  cases hfr : isFullRow row with
                  | false => rfl
                  | true => rw [hfr] at this; exact absurd this (by simp)

theorem inv_move {d : Direction} {s s' : State} (hinv : StateInv s)
    (h : moveApply d s = some s') : StateInv s' := by
  obtain ⟨hg, hnf, hcur, hnext, hheld, hsm⟩ := hinv
  rw [moveApply] at h
  cases hcol : collisionDetection s d with
  | none => rw [hcol] at h; exact absurd h (by simp)
  | some b =>
    rw [hcol] at h
    cases b with
    | true =>
      simp only [Option.some_inj] at h
      subst h
      exact ⟨hg, hnf, hcur, hnext, hheld, hsm⟩
    | false =>
      simp only [Option.some_inj] at h
      subst h
      exact ⟨hg, hnf, hcur, hnext, hheld, hsm⟩

theorem inv_rotate {s s' : State} (hinv : StateInv s)
    (h : rotateApply s = some s') : StateInv s' := by
  obtain ⟨hg, hnf, hcur, hnext, hheld, hsm⟩ := hinv
  simp only [rotateApply] at h
  cases hcol : collisionDetection
      { s with currentTetromino := { s.currentTetromino with rotation :=
        if s.currentTetromino.rotation + 1 < s.currentTetromino.shapes.length then
          s.currentTetromino.rotation + 1 else 0 } } Direction.ROTATE with
  | none => rw [hcol] at h; exact absurd h (by simp)
  | some b =>
    rw [hcol] at h
    cases b with
    | true =>
      simp only [Option.some_inj] at h
      subst h
      exact ⟨hg, hnf, hcur, hnext, hheld, hsm⟩
    | false =>
      simp only [Option.some_inj] at h
      subst h
      exact ⟨hg, hnf, hcur, hnext, hheld, hsm⟩

theorem inv_hold {r : Tetromino} {s : State} (hinv : StateInv s)
    (hr : r ∈ Tetrominos) : StateInv (holdApply r s) := by
  obtain ⟨hg, hnf, hcur, hnext, hheld, hsm⟩ := hinv
  rw [holdApply]
  by_cases husd : s.usedHold = true
  · rw [if_pos husd]
    exact ⟨hg, hnf, hcur, hnext, hheld, hsm⟩
  · rw [if_neg husd]
    cases hh : s.heldElement with
    | none =>
      refine ⟨hg, hnf, hnext, ⟨r, hr, rfl⟩, ?_, hsm⟩
      intro t ht
      simp only [Option.some_inj] at ht
      rw [← ht]
      exact hcur
    | some held =>
      refine ⟨hg, hnf, hheld held hh, hnext, ?_, hsm⟩
      intro t ht
      simp only [Option.some_inj] at ht
      rw [← ht]
      exact hcur

theorem inv_gameFlow {t1 t2 r : Tetromino} {s s' : State}
    (h1 : t1 ∈ Tetrominos) (h2 : t2 ∈ Tetrominos) (hinv : StateInv s)
    (hr : r ∈ Tetrominos) (h : gameFlowApply t1 t2 r s = some s') : StateInv s' := by
  rw [gameFlowApply] at h
  by_cases hge : s.gameEnd = true
  · rw [if_pos hge] at h
    simp only [Option.some_inj] at h
    subst h
    exact inv_reset t1 t2 h1 h2 _
  · rw [if_neg hge] at h
    by_cases hsp : s.speedMultiplier ≤ s.speedCount
    · rw [if_pos hsp] at h
      exact inv_moveTetrominoDown hinv hr h
    · rw [if_neg hsp] at h
      simp only [Option.some_inj] at h
      subst h
      obtain ⟨hg, hnf, hcur, hnext, hheld, hsm⟩ := hinv
      exact ⟨hg, hnf, hcur, hnext, hheld, hsm⟩

theorem inv_dropFuel {r : Tetromino} (hr : r ∈ Tetrominos) :
    ∀ (n : Nat) {s s' : State}, StateInv s → dropFuel r n s = some s' → StateInv s' := by
  intro n
  induction n with
  | zero => intro s s' _ h; exact absurd h (by simp [dropFuel])
  | succ n ih =>
    intro s s' hinv h
    rw [dropFuel] at h
    cases hcol : collisionDetection s Direction.DOWN with
    | none => rw [hcol] at h; exact absurd h (by simp)
    | some b =>
      rw [hcol] at h
      cases b with
      | true => exact inv_moveTetrominoDown hinv hr h
      | false =>
        cases hmv : moveTetrominoDown r s with
        | none => rw [hmv] at h; exact absurd h (by simp)
        | some s2 =>
          rw [hmv] at h
          exact ih (inv_moveTetrominoDown hinv hr hmv) h

theorem reachable_inv {t1 t2 : Tetromino} {s : State}
    (h : Reachable t1 t2 s) : StateInv s := by
  have hmem : ∀ {s2 : State}, Reachable t1 t2 s2 →
      t1 ∈ Tetrominos ∧ t2 ∈ Tetrominos := by
    intro s2 h2
    induction h2 with
    | init ha hb => exact ⟨ha, hb⟩
    | tick _ _ _ ih => exact ih
    | move _ _ _ ih => exact ih
    | rot _ _ ih => exact ih
    | down _ _ _ ih => exact ih
    | drop _ _ _ ih => exact ih
    | hold _ _ ih => exact ih
  induction h with
  | init ha hb => exact inv_init t1 t2 ha hb
  | tick hs hrr happ ih =>
    obtain ⟨ha, hb⟩ := hmem hs
    exact inv_gameFlow ha hb ih hrr happ
  | move hs hd happ ih => exact inv_move ih happ
  | rot hs happ ih => exact inv_rotate ih happ
  | down hs hrr happ ih => exact inv_moveTetrominoDown ih hrr happ
  | drop hs hrr happ ih => exact inv_dropFuel hrr _ ih happ
  | hold hs hrr ih => exact inv_hold ih hrr

/-- C5: every state reachable from the initial state by the six actions has a
grid of exactly 20 rows, each of exactly 10 cells. -/
theorem claim_C5 {t1 t2 : Tetromino} {s : State} (h : Reachable t1 t2 s) :
    s.grid.length = 20 ∧ ∀ r ∈ s.grid, r.length = 10 :=
  (reachable_inv h).1

/-- Witness for C5 at the initial state. -/
theorem claim_C5_witness :
    (initialState O_TETROMINO O_TETROMINO).grid.length = 20 ∧
    ∀ r ∈ (initialState O_TETROMINO O_TETROMINO).grid, r.length = 10 :=
  claim_C5 (Reachable.init (by decide) (by decide))

/-- C9: from any reachable state, one placement-and-clear cycle clears at
most 4 rows — the rowsCleared count produced by lineClear on the stamped grid
is at most 4 — so the unguarded scores lookup of calculateScore stays in
bounds during play. -/
theorem claim_C9 {t1 t2 : Tetromino} {s : State} (h : Reachable t1 t2 s)
    {placed newGrid : List (List GridCell)} {k : Nat}
    (hplace : placeTetrominoOnGrid s.grid s.currentTetromino = some placed)
    (hlc : lineClear placed = some (newGrid, k)) :
    k ≤ 4 ∧ (calculateScore s.level k).isSome := by
  obtain ⟨⟨hlen, hwid⟩, hnf, hcur, -, -, -⟩ := reachable_inv h
  have hplen : placed.length = 20 := by rw [place_length hplace, hlen]
  obtain ⟨r0, rest, hg⟩ : ∃ r0 rest, placed = r0 :: rest := by
    cases placed with
    | nil => simp at hplen
    | cons a b => exact ⟨a, b, rfl⟩
  obtain ⟨g0, grest, hgg⟩ : ∃ g0 grest, s.grid = g0 :: grest := by
    cases hgr : s.grid with
    | nil => rw [hgr] at hlen; simp at hlen
    | cons a b => exact ⟨a, b, rfl⟩
  have hg0w : g0.length = 10 := hwid g0 (hgg ▸ List.mem_cons_self _ _)
  obtain ⟨c0, cs, hg0⟩ : ∃ c0 cs, g0 = c0 :: cs := by
    cases g0 with
    | nil => simp at hg0w
    | cons a b => exact ⟨a, b, rfl⟩
  obtain ⟨shape, hsh⟩ := place_some_shape hplace hgg hg0
  have hshlen : shape.length ≤ 4 := by
    obtain ⟨c, hcmem, hceq⟩ := hcur
    have hmem : shape ∈ s.currentTetromino.shapes := List.get?_mem hsh
    rw [hceq] at hmem
    exact catalog_shape_height c hcmem shape hmem
  have hcount := (place_count_full s.currentTetromino shape hsh s.grid 0 placed
    hplace hnf).2
  rw [lineClear_eq hg] at hlc
  simp only [Option.some_inj, Prod.mk.injEq] at hlc
  obtain ⟨-, hk⟩ := hlc
  constructor
  · omega
  · exact calculateScore_isSome _ _ (by omega)

/-- Witness for C9 at the initial O placement. -/
theorem claim_C9_witness :
    placeTetrominoOnGrid (initialState O_TETROMINO O_TETROMINO).grid
      (initialState O_TETROMINO O_TETROMINO).currentTetromino =
        some placedInitialO ∧
    lineClear placedInitialO = some (placedInitialO, 0) ∧
    ((0 : Nat) ≤ 4 ∧
      (calculateScore (initialState O_TETROMINO O_TETROMINO).level 0).isSome) :=
  ⟨by decide, by decide,
    @claim_C9 O_TETROMINO O_TETROMINO (initialState O_TETROMINO O_TETROMINO)
      (Reachable.init (by decide) (by decide)) placedInitialO placedInitialO 0
      (by decide) (by decide)⟩

/-- C7 (amended): the speed multiplier is 10 initially and 10 - level after a
lock, with no floor; it stays at least 1 exactly while the cumulative cleared
rows stay at most 26 (level at most 9). Once 27 or more rows have been
cleared it reaches 0 and below. -/
theorem claim_C7 {t1 t2 : Tetromino} {s : State} (h : Reachable t1 t2 s)
    (hrc : s.rowsCleared ≤ 26) : 1 ≤ s.speedMultiplier := by
  obtain ⟨-, -, -, -, -, hsm⟩ := reachable_inv h
  rcases hsm with ⟨h10, -⟩ | heq
  · omega
  · rw [heq]
    have hdiv : s.rowsCleared / 3 ≤ 8 := by omega
    omega

/-- Witness for C7 at the initial state. -/
theorem claim_C7_witness :
    (initialState O_TETROMINO O_TETROMINO).rowsCleared ≤ 26 ∧
    1 ≤ (initialState O_TETROMINO O_TETROMINO).speedMultiplier :=
  ⟨by decide, claim_C7 (Reachable.init (by decide) (by decide)) (by decide)⟩

theorem oRound_valid : ∀ a ∈ oRound, ActValid a := by
  intro a ha
  fin_cases ha <;> simp [ActValid, Tetrominos]

theorem oTrace_valid : ∀ a ∈ oTrace, ActValid a := by
  intro a ha
  simp only [oTrace] at ha
  rw [List.mem_flatten] at ha
  obtain ⟨l, hl, hal⟩ := ha
  rw [List.mem_replicate] at hl
  rw [hl.2] at hal
  exact oRound_valid a hal

theorem runActs_reachable {t1 t2 : Tetromino} :
    ∀ (acts : List Act) (s s' : State), Reachable t1 t2 s →
      (∀ a ∈ acts, ActValid a) → runActs t1 t2 acts s = some s' →
      Reachable t1 t2 s' := by
  intro acts
  induction acts with
  | nil =>
    intro s s' hs _ h
    simp only [runActs, Option.some_inj] at h
    rw [← h]
    exact hs
  | cons a as ih =>
    intro s s' hs hv h
    rw [runActs] at h
    cases happ : applyAct t1 t2 a s with
    | none => simp only [happ] at h; exact absurd h (by simp)
    | some s2 =>
      simp only [happ] at h
      have hva := hv a (List.mem_cons_self _ _)
      have hs2 : Reachable t1 t2 s2 := by
        cases a with
        | tick r => exact Reachable.tick hs hva happ
        | move d => exact Reachable.move hs hva happ
        | rot => exact Reachable.rot hs happ
        | down r => exact Reachable.down hs hva happ
        | drop r f => exact Reachable.drop hs hva happ
        | hold r =>
          simp only [applyAct, Option.some_inj] at happ
          rw [← happ]
          exact Reachable.hold hs hva
      exact ih s2 s' hs2 (fun x hx => hv x (List.mem_cons_of_mem _ hx)) h

set_option maxRecDepth 100000 in
set_option maxHeartbeats 8000000 in
/-- C7 fails as stated: a concrete 70-piece game (fourteen rounds of five O
pieces, each round filling and clearing the bottom two rows) reaches a state
with 28 cumulative cleared rows, hence level 10 and speedMultiplier
10 - 10 = 0, a reachable state whose speed multiplier is not at least 1. -/
theorem claim_C7_counterexample :
    ∃ s, Reachable O_TETROMINO O_TETROMINO s ∧ s.speedMultiplier ≤ 0 := by
  have hcheck : c7FinalCheck = true := by decide
  unfold c7FinalCheck at hcheck
  cases hrun : runActs O_TETROMINO O_TETROMINO oTrace
      (initialState O_TETROMINO O_TETROMINO) with
  | none => rw [hrun] at hcheck; exact absurd hcheck (by simp)
  | some s2 =>
    rw [hrun] at hcheck
    refine ⟨s2, runActs_reachable oTrace _ s2
      (Reachable.init (by decide) (by decide)) oTrace_valid hrun, ?_⟩
    exact of_decide_eq_true hcheck
